import Mathlib

/-!
# Verification of the ndt7 download handler (src/ndt7/server.go)

Shallow embedding of the ndt7 `DownloadHandler` in Lean 4 and proofs of the
specification claims about it.

Modelling conventions:
* Go `float64` bandwidth samples are modelled as `ℚ` (the stopping formula
  uses only comparison, subtraction and multiplication by 0.25, all exact).
* Go `int`/`int64` are modelled as `ℤ`; times are nanoseconds since the
  session start `t0`, as in the source (`time.Duration` is an `int64`
  nanosecond count).
* The HTTP pre-upgrade phase is a pure function from the request's relevant
  data (query pairs, `Sec-WebSocket-Protocol` header value) to an outcome.
* The measurement loop is a small-step machine driven by a list of events:
  each event resolves one iteration of the Go `select` (a ticker tick or the
  `default` branch), carries the wall-clock reading the code would make, the
  optional BBR sample, and whether the write performed in that branch
  succeeds.  Ghost fields (`stopDecision`, `exitTime`) record, without
  affecting behaviour, whether the bandwidth heuristic fired and when the
  loop left its sending phase.
-/

namespace Ndt7

/-! ## Constants -/

/-- One second in nanoseconds (`time.Second`). -/
def second : Int := 1000000000

/-- `defaultDuration = 10 * time.Second`: the default duration of a subtest
in nanoseconds (src/ndt7/server.go line 15). -/
def defaultDuration : Int := 10 * second

/-- `maxDuration = 30`: the maximum duration of a subtest in seconds
(src/ndt7/server.go line 18). -/
def maxDuration : Int := 30

/-- `bufferSize = 1 << 13 = 8192`: the size in bytes of the prepared binary
payload message (src/ndt7/server.go, `const bufferSize = 1 << 13`). -/
def bufferSize : Int := 8192

/-- Modelled from the spec: `SecWebSocketProtocol` is the server's fixed
WebSocket subprotocol identifier, a constant of this repository defined
outside the embedded source file.  The spec fixes only that it is one
specific string the request header must equal; none of the claims depend on
its value. -/
def SecWebSocketProtocol : String := "net.measurementlab.ndt.v7"

/-- Modelled from the spec: `MinMeasurementInterval` is the minimum interval
between measurement records, "a fixed minimum interval, e.g. 250ms" (spec
section 4.5), a repository constant defined outside the embedded source
file.  Expressed in nanoseconds. -/
def MinMeasurementInterval : Int := 250000000

/-- `websocket.CloseNormalClosure` (RFC 6455 close code 1000), from the
gorilla/websocket library used by the source. -/
def closeNormalClosure : Int := 1000

/-! ## Stopping heuristic -/

/-- `stoppableAccordingToBW` (src/ndt7/server.go lines 32-34): returns true
when the download test can stop, given the previous BBR bandwidth sample
`prev` and the current sample `cur`:
`return cur >= prev && (cur - prev) < (0.25 * prev)`. -/
def stoppableAccordingToBW (prev : ℚ) (cur : ℚ) : Bool :=
  decide (cur ≥ prev) && decide ((cur - prev) < (0.25 * prev))

/-! ## Pre-upgrade phase: query validation and subprotocol negotiation -/

/-- A nonempty list of decimal digits, folded to its value: the digit-string
core of Go's `strconv.Atoi`. -/
def atoiDigits (cs : List Char) : Option Nat :=
  if cs ≠ [] ∧ cs.all (fun c => c.isDigit) then
    some (cs.foldl (fun acc c => acc * 10 + (c.toNat - ('0').toNat)) 0)
  else none

/-- Go's `strconv.Atoi`: an optional leading sign followed by at least one
decimal digit; anything else is an error (`none`).  (Go additionally errors
on 64-bit overflow; this model parses such strings to their exact integer,
which the handler rejects as out of range exactly as Go rejects the parse
error, so the handler's behaviour is unchanged.) -/
def atoi (s : String) : Option Int :=
  match s.toList with
  | [] => none
  | '+' :: rest => (atoiDigits rest).map (fun n => (n : Int))
  | '-' :: rest => (atoiDigits rest).map (fun n => -(n : Int))
  | l => (atoiDigits l).map (fun n => (n : Int))

/-- The relevant data of an incoming HTTP request: the decoded query-string
pairs (in order) and the value of the `Sec-WebSocket-Protocol` header
(`""` when the header is absent, as Go's `Header.Get` returns). -/
structure Request where
  query : List (String × String)
  secWebSocketProtocol : String

/-- `url.Values.Get`: the first value associated with the key, or `""` when
the key is absent. -/
def queryGet (q : List (String × String)) (key : String) : String :=
  match q.find? (fun p => decide (p.1 = key)) with
  | some p => p.2
  | none => ""

/-- Outcome of the pre-upgrade phase of `DownloadHandler.ServeHTTP`:
either an HTTP 400 response carrying a `Connection: Close` header with no
upgrade attempted, or an upgrade with the negotiated session duration in
nanoseconds (the upgrade response echoing the subprotocol). -/
inductive HandshakeResult where
  | reject400ConnectionClose : HandshakeResult
  | upgrade : Int → HandshakeResult
deriving DecidableEq, Repr

/-- The pre-upgrade phase of `DownloadHandler.ServeHTTP`
(src/ndt7/server.go lines 38-66): read the optional `duration` query value
(skipped when the string is empty), reject non-integers and values outside
`[0, maxDuration]` with 400 + `Connection: Close`, then require the
`Sec-WebSocket-Protocol` header to equal the fixed subprotocol, else
400 + `Connection: Close`; on success upgrade with
`duration = time.Second * value` (default `defaultDuration`). -/
def handshake (req : Request) : HandshakeResult :=
  let s := queryGet req.query "duration"
  if s ≠ "" then
    match atoi s with
    | none => .reject400ConnectionClose
    | some value =>
      if value < 0 ∨ maxDuration < value then .reject400ConnectionClose
      else if req.secWebSocketProtocol ≠ SecWebSocketProtocol then
        .reject400ConnectionClose
      else .upgrade (second * value)
  else
    if req.secWebSocketProtocol ≠ SecWebSocketProtocol then
      .reject400ConnectionClose
    else .upgrade defaultDuration

/-! ## Measurement loop

The Go loop (src/ndt7/server.go lines 88-139) repeatedly performs a
`select`: when the 250ms ticker has fired it builds a `Measurement` from the
elapsed time and byte counter, optionally reads a BBR sample (updating
`running` via `stoppableAccordingToBW` and retaining the new bandwidth), and
writes the measurement as JSON; otherwise (the `default` branch) it checks
the elapsed time against the requested duration — stopping the loop when
reached — and else writes one prepared 8192-byte binary message and advances
`count`.  A failed write in either branch returns immediately.  After the
loop, a close control message with `websocket.CloseNormalClosure` and empty
reason is written.

Each `Event` resolves one `select` iteration: which branch ran, the
wall-clock reading (nanoseconds since `t0`), the optional BBR
(bandwidth, rtt) sample for a tick, and whether the write in that branch
succeeded. -/

/-- The `Measurement` record sent as JSON: elapsed nanoseconds since the
session start, and the cumulative byte counter. -/
structure Measurement where
  Elapsed : Int
  NumBytes : Int
deriving DecidableEq, Repr

/-- A frame sent to the client: a binary data message of a given size, a
JSON measurement message, or a close control message with code and reason. -/
inductive Frame where
  | data : Int → Frame
  | measurement : Measurement → Frame
  | close : Int → String → Frame
deriving DecidableEq, Repr

/-- One resolved `select` iteration: `tick t sample writeOk` (ticker fired,
received time `t` ns after `t0`, `sample` the BBR (bandwidth, rtt) pair when
`fd ≠ -1` and `bbr.GetBBRInfo` succeeded, `writeOk` whether `WriteJSON`
succeeds) or `send now writeOk` (the `default` branch, with `now` the
current elapsed time and `writeOk` whether `WritePreparedMessage`
succeeds). -/
inductive Event where
  | tick : Int → Option (ℚ × ℚ) → Bool → Event
  | send : Int → Bool → Event
deriving DecidableEq

/-- The loop's mutable state: `count` (bytes sent), `bandwidth` (retained
previous BBR bandwidth sample, initially 0) and `running`, plus two ghost
fields that record — without affecting behaviour — whether
`stoppableAccordingToBW` ever fired (`stopDecision`) and the elapsed time
at which `running` was set to false (`exitTime`). -/
structure LoopState where
  count : Int
  bandwidth : ℚ
  running : Bool
  stopDecision : Bool
  exitTime : Option Int

/-- The state just before the loop: `count = 0`, `bandwidth = 0`,
`running = true` (src/ndt7/server.go lines 89-91). -/
def initState : LoopState :=
  { count := 0, bandwidth := 0, running := true,
    stopDecision := false, exitTime := none }

/-- Result of one loop iteration: continue with a new state having emitted
some frames, or return immediately after a failed write. -/
inductive StepResult where
  | cont : LoopState → List Frame → StepResult
  | errorExit : List Frame → StepResult

/-- How the session ended: the loop left `running` (normal termination), a
write failed (`return`, no close frame), or the event trace ran out while
the loop was still running. -/
inductive Outcome where
  | finished : Outcome
  | writeError : Outcome
  | outOfEvents : Outcome
deriving DecidableEq, Repr

/-- The state change of the tick branch once the optional BBR sample is in
hand: with a sample `bw`, set `running = !stoppableAccordingToBW bandwidth
bw` and retain `bw` as the new bandwidth (ghost fields record whether and
when the heuristic fired); with no sample, leave the state unchanged. -/
def tickUpdate (st : LoopState) (t : Int) : Option (ℚ × ℚ) → LoopState
  | some bwrtt =>
    let s := stoppableAccordingToBW st.bandwidth bwrtt.1
    { st with running := !s, bandwidth := bwrtt.1,
              stopDecision := st.stopDecision || s,
              exitTime := if s then some t else st.exitTime }
  | none => st

/-- One iteration of the loop body.  Tick branch: build the measurement
from the received time and current counter; apply `tickUpdate`; write the
measurement (failure → immediate return).  Default branch: when the
elapsed time has reached `duration` stop running (no write); otherwise
write the prepared data message (failure → immediate return) and advance
`count` by `bufferSize`. -/
def step (duration : Int) (st : LoopState) : Event → StepResult
  | .tick t sample ok =>
    let m : Measurement := { Elapsed := t, NumBytes := st.count }
    if ok then .cont (tickUpdate st t sample) [Frame.measurement m]
    else .errorExit []
  | .send now ok =>
    if duration ≤ now then
      .cont { st with running := false, exitTime := some now } []
    else if ok then
      .cont { st with count := st.count + bufferSize } [Frame.data bufferSize]
    else .errorExit []

/-- The loop `for running := true; running { select ... }`, driven by the
event trace: returns the emitted frames, the final state, and the outcome. -/
def runLoop (duration : Int) :
    LoopState → List Event → List Frame × LoopState × Outcome
  | st, [] =>
    ([], st, if st.running then Outcome.outOfEvents else Outcome.finished)
  | st, e :: es =>
    if st.running then
      match step duration st e with
      | .cont st' out =>
        let r := runLoop duration st' es
        (out ++ r.1, r.2)
      | .errorExit out => (out, st, Outcome.writeError)
    else ([], st, Outcome.finished)

/-- The whole post-upgrade session: run the loop from `initState`; when the
loop terminates normally, append the close control frame
(`websocket.CloseNormalClosure`, empty reason) written after the loop
(src/ndt7/server.go lines 137-139). -/
def session (duration : Int) (events : List Event) : List Frame × Outcome :=
  let r := runLoop duration initState events
  if r.2.2 = Outcome.finished then
    (r.1 ++ [Frame.close closeNormalClosure ""], Outcome.finished)
  else (r.1, r.2.2)

/-- Frame-trace invariant: starting from byte counter `k`, every data frame
has size `bufferSize` and every measurement frame reports exactly the bytes
accumulated so far. -/
def framesOk (k : Int) : List Frame → Prop
  | [] => True
  | Frame.data n :: fs => n = bufferSize ∧ framesOk (k + bufferSize) fs
  | Frame.measurement m :: fs => m.NumBytes = k ∧ framesOk k fs
  | Frame.close _ _ :: fs => framesOk k fs

/-- The `NumBytes` values of the measurement frames of a trace, in order. -/
def numBytesSeq : List Frame → List Int
  | [] => []
  | Frame.measurement m :: fs => m.NumBytes :: numBytesSeq fs
  | _ :: fs => numBytesSeq fs

/-- The number of binary data frames in a trace. -/
def countData : List Frame → Int
  | [] => 0
  | Frame.data _ :: fs => 1 + countData fs
  | _ :: fs => countData fs

/-- Whether the write performed in an event's branch succeeds. -/
def eventWriteOk : Event → Bool
  | .tick _ _ ok => ok
  | .send _ ok => ok

/-- The wall-clock reading of an event (nanoseconds since `t0`). -/
def eventTime : Event → Int
  | .tick t _ _ => t
  | .send t _ => t

end Ndt7

namespace Ndt7

/-! ## Theorems: stopping heuristic (C1, C2, C3) -/

/-- C1: for all bandwidth samples `prev ≥ 0` and `cur ≥ 0`, the stopping
decision equals the literal formula: `stoppableAccordingToBW prev cur`
returns true iff `cur ≥ prev` and `cur - prev < 0.25 * prev`; in particular
for `prev = 100`, `cur = 120` it returns true. -/
theorem stoppable_literal_formula (prev cur : ℚ) (hp : 0 ≤ prev)
    (hc : 0 ≤ cur) :
    (stoppableAccordingToBW prev cur = true ↔
      (prev ≤ cur ∧ cur - prev < 0.25 * prev)) ∧
    stoppableAccordingToBW 100 120 = true := by
  constructor
  · simp [stoppableAccordingToBW, ge_iff_le]
  · simp only [stoppableAccordingToBW, Bool.and_eq_true, decide_eq_true_eq]
    norm_num

/-- Witness for C1: at the concrete pair `prev = 100`, `cur = 120` (both
nonnegative) the heuristic fires, matching the formula. -/
theorem stoppable_literal_formula_witness :
    (stoppableAccordingToBW 100 120 = true ↔
      ((100 : ℚ) ≤ 120 ∧ (120 : ℚ) - 100 < 0.25 * 100)) ∧
    stoppableAccordingToBW 100 120 = true :=
  stoppable_literal_formula 100 120 (by norm_num) (by norm_num)

/-- C2: when the retained previous bandwidth is its initial 0 (no real
sample taken yet), the stop decision is "not stoppable" for every current
value `cur ≥ 0`: `stoppableAccordingToBW 0 cur = false`, so a tick carrying
the first real sample leaves the loop running — the first real sample never
terminates the session. -/
theorem stoppable_first_sample_false (cur : ℚ) (hc : 0 ≤ cur) :
    stoppableAccordingToBW 0 cur = false ∧
    ∀ t rtt, (tickUpdate initState t (some (cur, rtt))).running = true := by
  have h : stoppableAccordingToBW 0 cur = false := by
    simp only [stoppableAccordingToBW, Bool.and_eq_false_iff,
      decide_eq_false_iff_not, not_lt]
    right
    simpa using hc
  refine ⟨h, ?_⟩
  intro t rtt
  simp [tickUpdate, initState, h]

/-- Witness for C2: at the concrete current sample `cur = 5` the decision
is "not stoppable" and the loop stays running. -/
theorem stoppable_first_sample_false_witness :
    stoppableAccordingToBW 0 5 = false ∧
    (tickUpdate initState 7 (some (5, 0))).running = true :=
  ⟨(stoppable_first_sample_false 5 (by norm_num)).1,
   (stoppable_first_sample_false 5 (by norm_num)).2 7 0⟩

/-- C3 counterexample: the claim "when `prev = 0` the stopping condition
trivially holds for every `cur ≥ 0`, i.e. `stoppableAccordingToBW 0 cur`
is true" is false at the concrete input `cur = 5`: the strict inequality
`cur - 0 < 0.25 * 0 = 0` fails. -/
theorem stoppable_zero_prev_counterexample :
    ¬ (stoppableAccordingToBW 0 5 = true) := by
  simp only [stoppableAccordingToBW, Bool.and_eq_true, decide_eq_true_eq]
  norm_num

/-- C3 (amended): when `prev = 0`, the stopping condition fails for every
`cur ≥ 0` (the strict inequality `cur - 0 < 0.25 * 0` cannot hold), so the
code's formula already never triggers a stop on the first real sample. -/
theorem stoppable_zero_prev_never_fires (cur : ℚ) (hc : 0 ≤ cur) :
    stoppableAccordingToBW 0 cur = false := by
  simp only [stoppableAccordingToBW, Bool.and_eq_false_iff,
    decide_eq_false_iff_not, not_lt]
  right
  simpa using hc

/-- Witness for C3 (amended): at the concrete current sample `cur = 120`
the condition fails. -/
theorem stoppable_zero_prev_never_fires_witness :
    stoppableAccordingToBW 0 120 = false :=
  stoppable_zero_prev_never_fires 120 (by norm_num)

/-! ## Theorems: pre-upgrade validation (C4, C5, C10) -/

/-- C4: for every request supplying a nonempty `duration` query value `s`:
if `s` parses as an integer in `[0, maxDuration]` the handler upgrades
using that many seconds as the session duration (given the subprotocol
matches); if `s` does not parse, or parses out of range, the handler
responds HTTP 400 with `Connection: Close` and no upgrade; and when the
parameter is absent the default 10 seconds is used. -/
theorem duration_validation (req : Request) (s : String)
    (hq : queryGet req.query "duration" = s) (hs : s ≠ "") :
    (∀ v : Int, atoi s = some v → 0 ≤ v → v ≤ maxDuration →
      req.secWebSocketProtocol = SecWebSocketProtocol →
      handshake req = .upgrade (second * v)) ∧
    (atoi s = none → handshake req = .reject400ConnectionClose) ∧
    (∀ v : Int, atoi s = some v → (v < 0 ∨ maxDuration < v) →
      handshake req = .reject400ConnectionClose) ∧
    (∀ req' : Request, queryGet req'.query "duration" = "" →
      req'.secWebSocketProtocol = SecWebSocketProtocol →
      handshake req' = .upgrade defaultDuration) := by
  refine ⟨?_, ?_, ?_, ?_⟩
  · intro v hv h0 h30 hproto
    simp only [handshake, hq, if_pos hs, hv]
    have hrange : ¬ (v < 0 ∨ maxDuration < v) := by
      push_neg
      exact ⟨h0, h30⟩
    simp [hrange, hproto]
  · intro hv
    simp [handshake, hq, if_pos hs, hv]
  · intro v hv hrange
    simp [handshake, hq, if_pos hs, hv, hrange]
  · intro req' hq' hproto
    simp [handshake, hq', hproto]

/-- Witness for C4: the request `?duration=7` with the correct subprotocol
upgrades with a 7-second session. -/
theorem duration_validation_witness :
    handshake ⟨[("duration", "7")], SecWebSocketProtocol⟩ =
      .upgrade (second * 7) :=
  (duration_validation ⟨[("duration", "7")], SecWebSocketProtocol⟩ "7"
    (by rfl) (by decide)).1 7 (by decide) (by decide) (by decide) rfl

/-- C5: every request whose `Sec-WebSocket-Protocol` header is missing or
differs from the server's fixed subprotocol identifier is answered with
HTTP 400 + `Connection: Close` and no upgrade, regardless of the validity
of the `duration` parameter. -/
theorem missing_subprotocol_rejected (req : Request)
    (h : req.secWebSocketProtocol ≠ SecWebSocketProtocol) :
    handshake req = .reject400ConnectionClose := by
  simp only [handshake]
  split
  · cases hv : atoi (queryGet req.query "duration") with
    | none => rfl
    | some value =>
      by_cases hrange : value < 0 ∨ maxDuration < value
      · simp [hrange]
      · simp [hrange, h]
  · simp [h]

/-- Witness for C5: a request with a valid duration but an absent
subprotocol header (header value `""`) is rejected. -/
theorem missing_subprotocol_rejected_witness :
    handshake ⟨[("duration", "7")], ""⟩ = .reject400ConnectionClose :=
  missing_subprotocol_rejected ⟨[("duration", "7")], ""⟩ (by decide)

/-! ## Helper lemmas about frame traces and the loop -/

/-- `framesOk` splits across an append: the suffix starts from the counter
accumulated by the prefix's data frames. -/
theorem framesOk_append (fs gs : List Frame) (k : Int) :
    framesOk k (fs ++ gs) ↔
      framesOk k fs ∧ framesOk (k + bufferSize * countData fs) gs := by
  induction fs generalizing k with
  | nil => simp [framesOk, countData]
  | cons f fs ih =>
    cases f with
    | data n =>
      simp only [List.cons_append, framesOk, countData, List.append_eq,
        ih, and_assoc]
      rw [show k + bufferSize * (1 + countData fs)
            = k + bufferSize + bufferSize * countData fs by ring]
    | measurement m =>
      simp only [List.cons_append, framesOk, countData, List.append_eq,
        ih, and_assoc]
    | close c r =>
      simp only [List.cons_append, framesOk, countData, List.append_eq, ih]

/-- The loop's output frames satisfy `framesOk` from the state's current
byte counter: data frames are `bufferSize` bytes and each measurement
reports exactly the bytes counted so far. -/
theorem framesOk_runLoop (duration : Int) (es : List Event)
    (st : LoopState) : framesOk st.count (runLoop duration st es).1 := by
  induction es generalizing st with
  | nil => simp [runLoop, framesOk]
  | cons e es ih =>
    simp only [runLoop]
    by_cases hr : st.running
    · simp only [hr, if_true]
      cases e with
      | tick t sample ok =>
        cases sample with
        | none =>
          cases ok with
          | false => simp [step, framesOk]
          | true =>
            simp only [step, if_true]
            exact ⟨rfl, ih (tickUpdate st t none)⟩
        | some bwrtt =>
          cases ok with
          | false => simp [step, framesOk]
          | true =>
            simp only [step, if_true]
            exact ⟨rfl, ih (tickUpdate st t (some bwrtt))⟩
      | send now ok =>
        by_cases hd : duration ≤ now
        · simp only [step, hd, if_true]
          exact ih { st with running := false, exitTime := some now }
        · cases ok with
          | false => simp [step, hd, framesOk]
          | true =>
            simp only [step, hd, if_false, if_true]
            exact ⟨rfl, ih { st with count := st.count + bufferSize }⟩
    · simp [hr, framesOk]

/-- The loop itself never emits a close frame (the close control message is
written only after the loop). -/
theorem close_not_mem_runLoop (duration : Int) (es : List Event)
    (st : LoopState) (c : Int) (r : String) :
    Frame.close c r ∉ (runLoop duration st es).1 := by
  induction es generalizing st with
  | nil => simp [runLoop]
  | cons e es ih =>
    simp only [runLoop]
    by_cases hr : st.running
    · simp only [hr, if_true]
      cases e with
      | tick t sample ok =>
        cases sample with
        | none =>
          cases ok with
          | false => simp [step]
          | true =>
            simp only [step, if_true]
            simp only [List.singleton_append, List.mem_cons, not_or]
            exact ⟨by simp, ih (tickUpdate st t none)⟩
        | some bwrtt =>
          cases ok with
          | false => simp [step]
          | true =>
            simp only [step, if_true]
            simp only [List.singleton_append, List.mem_cons, not_or]
            exact ⟨by simp, ih (tickUpdate st t (some bwrtt))⟩
      | send now ok =>
        by_cases hd : duration ≤ now
        · simp only [step, hd, if_true]
          exact ih { st with running := false, exitTime := some now }
        · cases ok with
          | false => simp [step, hd]
          | true =>
            simp only [step, hd, if_false, if_true]
            simp only [List.singleton_append, List.mem_cons, not_or]
            exact ⟨by simp, ih { st with count := st.count + bufferSize }⟩
    · simp [hr]

/-- From `framesOk k`, the measurement values are a non-decreasing chain
and all are at least `k`. -/
theorem framesOk_chain (fs : List Frame) (k : Int) (h : framesOk k fs) :
    (numBytesSeq fs).Chain' (· ≤ ·) ∧ ∀ x ∈ numBytesSeq fs, k ≤ x := by
  induction fs generalizing k with
  | nil => simp [numBytesSeq]
  | cons f fs ih =>
    cases f with
    | data n =>
      simp only [framesOk] at h
      obtain ⟨-, h2⟩ := h
      obtain ⟨ihc, ihb⟩ := ih (k + bufferSize) h2
      have hb : (0 : Int) ≤ bufferSize := by norm_num [bufferSize]
      simp only [numBytesSeq]
      exact ⟨ihc, fun x hx => le_trans (le_add_of_nonneg_right hb) (ihb x hx)⟩
    | measurement m =>
      simp only [framesOk] at h
      obtain ⟨h1, h2⟩ := h
      obtain ⟨ihc, ihb⟩ := ih k h2
      constructor
      · rw [numBytesSeq, List.chain'_cons']
        refine ⟨?_, ihc⟩
        intro y hy
        have hy' : y ∈ numBytesSeq fs := List.mem_of_mem_head? hy
        rw [h1]
        exact ihb y hy'
      · intro x hx
        rw [numBytesSeq, List.mem_cons] at hx
        rcases hx with hx | hx
        · rw [hx, h1]
        · exact ihb x hx
    | close c r =>
      simp only [framesOk] at h
      simp only [numBytesSeq]
      exact ih k h

/-- From `framesOk k`, a measurement frame at any position reports `k` plus
`bufferSize` per data frame before it. -/
theorem framesOk_prefix_measurement (fs pre post : List Frame)
    (m : Measurement) (k : Int) (h : framesOk k fs)
    (heq : fs = pre ++ Frame.measurement m :: post) :
    m.NumBytes = k + bufferSize * countData pre := by
  rw [heq, framesOk_append] at h
  exact h.2.1

/-- A loop that ended with a write error ignores any events after the
failure: the `return` leaves the handler at once. -/
theorem runLoop_writeError_append (duration : Int) (es es2 : List Event)
    (st : LoopState)
    (h : (runLoop duration st es).2.2 = Outcome.writeError) :
    runLoop duration st (es ++ es2) = runLoop duration st es := by
  induction es generalizing st with
  | nil =>
    exfalso
    simp only [runLoop] at h
    by_cases hr : st.running <;> simp [hr] at h
  | cons e es ih =>
    simp only [List.cons_append, runLoop] at h ⊢
    by_cases hr : st.running
    · simp only [hr, if_true] at h ⊢
      cases hstep : step duration st e with
      | cont st' out =>
        simp only [hstep] at h ⊢
        simp only [List.append_eq]
        rw [ih st' h]
      | errorExit out =>
        simp only [hstep]
    · simp [hr] at h

/-- A session whose outcome is `writeError` got that outcome from the
loop. -/
theorem session_writeError (d : Int) (es : List Event)
    (h : (session d es).2 = Outcome.writeError) :
    (runLoop d initState es).2.2 = Outcome.writeError := by
  by_cases hoc : (runLoop d initState es).2.2 = Outcome.finished
  · simp [session, hoc] at h
  · simp only [session] at h
    rw [if_neg hoc] at h
    exact h

/-- A session whose outcome is `finished` got that outcome from the
loop. -/
theorem session_finished (d : Int) (es : List Event)
    (h : (session d es).2 = Outcome.finished) :
    (runLoop d initState es).2.2 = Outcome.finished := by
  by_contra hoc
  simp only [session] at h
  rw [if_neg hoc] at h
  exact hoc h

/-- C10: a `duration` query parameter that is present but empty
(`?duration=` with no value) is treated exactly like an absent parameter:
for every subprotocol header value the handler behaves identically to a
request without the parameter, and with the correct subprotocol it
upgrades with the default 10-second duration and produces no HTTP 400. -/
theorem empty_duration_like_absent :
    (∀ proto : String,
      handshake ⟨[("duration", "")], proto⟩ = handshake ⟨[], proto⟩) ∧
    handshake ⟨[("duration", "")], SecWebSocketProtocol⟩ =
      .upgrade defaultDuration := by
  constructor
  · intro proto
    rfl
  · rfl

/-- A loop whose state is no longer running returns at once. -/
theorem runLoop_not_running (d : Int) (es : List Event) (st : LoopState)
    (h : st.running = false) :
    runLoop d st es = ([], st, Outcome.finished) := by
  cases es with
  | nil => simp [runLoop, h]
  | cons e es => simp [runLoop, h]

/-- The ghost `stopDecision` flag is monotone: once the heuristic has
fired, it stays recorded through the rest of the loop. -/
theorem stopDecision_mono_runLoop (d : Int) (es : List Event)
    (st : LoopState) (h : st.stopDecision = true) :
    (runLoop d st es).2.1.stopDecision = true := by
  induction es generalizing st with
  | nil => simpa [runLoop] using h
  | cons e es ih =>
    simp only [runLoop]
    by_cases hr : st.running
    · simp only [hr, if_true]
      cases e with
      | tick t sample ok =>
        cases ok with
        | false => simpa [step] using h
        | true =>
          simp only [step, if_true]
          cases sample with
          | none => exact ih (tickUpdate st t none) (by simpa [tickUpdate] using h)
          | some bwrtt =>
            exact ih (tickUpdate st t (some bwrtt)) (by simp [tickUpdate, h])
      | send now ok =>
        by_cases hd : d ≤ now
        · simp only [step, hd, if_true]
          exact ih { st with running := false, exitTime := some now }
            (by simpa using h)
        · cases ok with
          | false => simpa [step, hd] using h
          | true =>
            simp only [step, hd, if_false, if_true]
            exact ih { st with count := st.count + bufferSize }
              (by simpa using h)
    · simpa [hr] using h

/-- Main induction for C8: from a running state with empty ghost fields, if
every write in the trace succeeds, the trace's timestamps are sorted, the
stopping heuristic never fires during the run, and some successful
`default` iteration occurs in the window
`[duration, duration + MinMeasurementInterval)`, then the loop leaves its
sending phase at a time `T` with `duration ≤ T <
duration + MinMeasurementInterval` and finishes normally. -/
theorem runLoop_exit_in_window (d : Int) (es : List Event) (st : LoopState)
    (hrun : st.running = true) (hexit : st.exitTime = none)
    (hsd : st.stopDecision = false)
    (hW : ∀ e ∈ es, eventWriteOk e = true)
    (hS : List.Sorted (· ≤ ·) (es.map eventTime))
    (hNoStop : (runLoop d st es).2.1.stopDecision = false)
    (hEx : ∃ n, Event.send n true ∈ es ∧ d ≤ n ∧
      n < d + MinMeasurementInterval) :
    ∃ T, (runLoop d st es).2.1.exitTime = some T ∧
      d ≤ T ∧ T < d + MinMeasurementInterval ∧
      (runLoop d st es).2.2 = Outcome.finished := by
  induction es generalizing st with
  | nil =>
    obtain ⟨n, hn_mem, -, -⟩ := hEx
    exact absurd hn_mem (List.not_mem_nil _)
  | cons e es ih =>
    obtain ⟨n, hn_mem, hn_lo, hn_hi⟩ := hEx
    simp only [runLoop, hrun, if_true] at hNoStop ⊢
    cases e with
    | send now ok =>
      have hok : ok = true := by
        simpa [eventWriteOk] using hW (Event.send now ok) (List.mem_cons_self _ _)
      subst hok
      by_cases hd : d ≤ now
      · have hnow_hi : now < d + MinMeasurementInterval := by
          rcases List.mem_cons.mp hn_mem with heq | hmem
          · obtain ⟨rfl, -⟩ : n = now ∧ True := by
              simpa [Event.send.injEq] using heq
            exact hn_hi
          · have hle : now ≤ n := by
              have := List.rel_of_sorted_cons hS (eventTime (Event.send n true))
                (List.mem_map_of_mem eventTime hmem)
              simpa [eventTime] using this
            exact lt_of_le_of_lt hle hn_hi
        simp only [step, hd, if_true]
        rw [runLoop_not_running d es
          { st with running := false, exitTime := some now } rfl]
        exact ⟨now, rfl, hd, hnow_hi, rfl⟩
      · have hmem : Event.send n true ∈ es := by
          rcases List.mem_cons.mp hn_mem with heq | hmem
          · exfalso
            obtain ⟨rfl, -⟩ : n = now ∧ True := by
              simpa [Event.send.injEq] using heq
            exact hd hn_lo
          · exact hmem
        simp only [step, hd, if_false, if_true] at hNoStop ⊢
        exact ih { st with count := st.count + bufferSize } hrun hexit hsd
          (fun e he => hW e (List.mem_cons_of_mem _ he)) hS.of_cons hNoStop
          ⟨n, hmem, hn_lo, hn_hi⟩
    | tick t sample ok =>
      have hok : ok = true := by
        simpa [eventWriteOk] using hW (Event.tick t sample ok)
          (List.mem_cons_self _ _)
      subst hok
      have hmem : Event.send n true ∈ es := by
        rcases List.mem_cons.mp hn_mem with heq | hmem
        · exact absurd heq (by simp)
        · exact hmem
      cases sample with
      | none =>
        simp only [step, if_true] at hNoStop ⊢
        exact ih st hrun hexit hsd
          (fun e he => hW e (List.mem_cons_of_mem _ he)) hS.of_cons hNoStop
          ⟨n, hmem, hn_lo, hn_hi⟩
      | some bwrtt =>
        simp only [step, if_true] at hNoStop ⊢
        have hs : stoppableAccordingToBW st.bandwidth bwrtt.1 = false := by
          by_contra hs
          have hs' : stoppableAccordingToBW st.bandwidth bwrtt.1 = true := by
            simpa using hs
          have hset : (tickUpdate st t (some bwrtt)).stopDecision = true := by
            simp [tickUpdate, hs', hsd]
          have hmono := stopDecision_mono_runLoop d es
            (tickUpdate st t (some bwrtt)) hset
          rw [hmono] at hNoStop
          cases hNoStop
        exact ih (tickUpdate st t (some bwrtt))
          (by simp [tickUpdate, hs]) (by simp [tickUpdate, hs, hexit])
          (by simp [tickUpdate, hs, hsd])
          (fun e he => hW e (List.mem_cons_of_mem _ he)) hS.of_cons hNoStop
          ⟨n, hmem, hn_lo, hn_hi⟩

/-! ## Theorems: measurement loop (C6, C7, C9) -/

/-- C6: throughout any session, the `NumBytes` of the emitted measurement
records is monotonically non-decreasing across successive records, and each
record's `NumBytes` equals 8192 (`bufferSize`) times the number of binary
data frames sent before it — the counter advances only on data-frame sends,
never on measurement-frame sends. -/
theorem numBytes_monotone_and_counts_data (duration : Int)
    (events : List Event) :
    (numBytesSeq (session duration events).1).Chain' (· ≤ ·) ∧
    ∀ pre m post,
      (session duration events).1 = pre ++ Frame.measurement m :: post →
      m.NumBytes = bufferSize * countData pre := by
  have h1 : framesOk 0 (runLoop duration initState events).1 :=
    framesOk_runLoop duration events initState
  have h0 : framesOk 0 (session duration events).1 := by
    simp only [session]
    by_cases hoc : (runLoop duration initState events).2.2 = Outcome.finished
    · rw [if_pos hoc]
      rw [framesOk_append]
      exact ⟨h1, by simp [framesOk]⟩
    · rw [if_neg hoc]
      exact h1
  refine ⟨(framesOk_chain _ 0 h0).1, ?_⟩
  intro pre m post heq
  have := framesOk_prefix_measurement _ pre post m 0 h0 heq
  simpa using this

/-- C7: if a write of a data frame or of a measurement frame fails, the
session terminates immediately — later events change nothing — and the
close control frame is never sent (the normal-closure handshake is skipped
on every write-error exit path). -/
theorem write_error_aborts_without_close (d : Int) (es es2 : List Event)
    (h : (session d es).2 = Outcome.writeError) :
    (∀ c r, Frame.close c r ∉ (session d es).1) ∧
    session d (es ++ es2) = session d es := by
  have hw := session_writeError d es h
  have hnotfin : ¬ (runLoop d initState es).2.2 = Outcome.finished := by
    rw [hw]
    intro hcontra
    cases hcontra
  constructor
  · intro c r
    have hfr : (session d es).1 = (runLoop d initState es).1 := by
      simp only [session]
      rw [if_neg hnotfin]
    rw [hfr]
    exact close_not_mem_runLoop d es initState c r
  · have happ := runLoop_writeError_append d es es2 initState hw
    simp only [session, happ]

/-- Witness for C7: a session whose very first data-frame write fails emits
no close frame, and appending further events changes nothing. -/
theorem write_error_aborts_without_close_witness :
    Frame.close closeNormalClosure "" ∉
      (session defaultDuration [Event.send 0 false]).1 ∧
    session defaultDuration ([Event.send 0 false] ++ [Event.send 1 true]) =
      session defaultDuration [Event.send 0 false] :=
  ⟨(write_error_aborts_without_close defaultDuration [Event.send 0 false]
      [Event.send 1 true] (by decide)).1 closeNormalClosure "",
   (write_error_aborts_without_close defaultDuration [Event.send 0 false]
      [Event.send 1 true] (by decide)).2⟩

/-- C9: every session that terminates normally (duration elapsed or the
stopping heuristic fired) sends exactly one close control frame, carrying
the normal-closure code and an empty reason, as its final frame before the
connection is released: the frame trace is a close-free prefix followed by
that single close frame. -/
theorem normal_termination_single_close (d : Int) (es : List Event)
    (h : (session d es).2 = Outcome.finished) :
    ∃ fs, (session d es).1 = fs ++ [Frame.close closeNormalClosure ""] ∧
      ∀ c r, Frame.close c r ∉ fs := by
  have hoc := session_finished d es h
  refine ⟨(runLoop d initState es).1, ?_, ?_⟩
  · simp only [session]
    rw [if_pos hoc]
  · intro c r
    exact close_not_mem_runLoop d es initState c r

/-- Witness for C9: a zero-duration session that stops at its first
`default` iteration ends with exactly the normal-closure close frame. -/
theorem normal_termination_single_close_witness :
    ∃ fs, (session 0 [Event.send 0 true]).1 =
        fs ++ [Frame.close closeNormalClosure ""] ∧
      ∀ c r, Frame.close c r ∉ fs :=
  normal_termination_single_close 0 [Event.send 0 true] (by decide)

/-! ## Theorems: loop timing (C8) -/

/-- C8: in a session with no write error and no early stop decision
(`stopDecision` stays false), whose `select` iterations carry sorted
timestamps and include a `default` iteration in the window
`[duration, duration + MinMeasurementInterval)`, the measurement loop does
not leave its sending phase before the requested duration has elapsed, and
it leaves it within the requested duration plus one measurement interval
(250ms) of the session start: the recorded exit time `T` satisfies
`duration ≤ T < duration + MinMeasurementInterval`, and the loop finishes
normally. -/
theorem loop_exits_within_duration_plus_interval (d : Int)
    (events : List Event)
    (hW : ∀ e ∈ events, eventWriteOk e = true)
    (hS : List.Sorted (· ≤ ·) (events.map eventTime))
    (hNoStop : (runLoop d initState events).2.1.stopDecision = false)
    (hEx : ∃ n, Event.send n true ∈ events ∧ d ≤ n ∧
      n < d + MinMeasurementInterval) :
    ∃ T, (runLoop d initState events).2.1.exitTime = some T ∧
      d ≤ T ∧ T < d + MinMeasurementInterval ∧
      (runLoop d initState events).2.2 = Outcome.finished :=
  runLoop_exit_in_window d events initState rfl rfl rfl hW hS hNoStop hEx

/-- Witness for C8: a 1-second session sends at time 0, ticks without a BBR
sample at 250ms, and hits the `default` branch again exactly at 1s: the
loop exits at that iteration, inside the allowed window, and finishes. -/
theorem loop_exits_within_duration_plus_interval_witness :
    ∃ T, (runLoop second initState
        [Event.send 0 true, Event.tick 250000000 none true,
         Event.send second true]).2.1.exitTime = some T ∧
      second ≤ T ∧ T < second + MinMeasurementInterval ∧
      (runLoop second initState
        [Event.send 0 true, Event.tick 250000000 none true,
         Event.send second true]).2.2 = Outcome.finished :=
  loop_exits_within_duration_plus_interval second
    [Event.send 0 true, Event.tick 250000000 none true,
     Event.send second true]
    (by decide) (by decide) (by decide)
    ⟨second, by decide, by decide, by decide⟩

end Ndt7
